import Mathlib

/-!
Verification of the transaction submission pipeline of this repository.

The embedding translates `sendTransaction` and `sendSignedTransaction`
(together with the gas pricing guard and the event emission call sites)
from the eth module, and `Web3Eth.getSha3` from the typed wrapper class.
Network effects are modelled by an `Oracle` record holding the outcome of
each remote call the pipeline can make; the deferred async body of each
submission becomes a pure function from that oracle (and the listener
counts registered on the handle) to a run record: the emitted event trace,
the settlement of the terminal promise, and the escaped (uncaught)
rejection of the internal task, if any.
-/

/-- The six lifecycle event tags of a submission handle. -/
inductive Tag
  | sending
  | sent
  | transactionHash
  | receipt
  | confirmation
  | error
deriving DecidableEq, Repr

/-- Failures a remote call can raise: a transport failure, the poller
timeout, or a gas pricing failure. -/
inductive Err
  | transport : Nat → Err
  | timeout : Err
  | pricingFailure : Nat → Err
deriving DecidableEq, Repr

/-- A numeric value in either decimal or hex representation, mirroring the
`Numbers` union that `format` converts between representations. -/
inductive Numbers
  | dec : Nat → Numbers
  | hex : Nat → Numbers
deriving DecidableEq, Repr

/-- Formatting a numeric value to FMT_NUMBER.HEX. -/
def toHex : Numbers → Numbers
  | Numbers.dec n => Numbers.hex n
  | Numbers.hex n => Numbers.hex n

/-- A transaction request, keeping only the pricing fields the pipeline
inspects; everything else (to, value, data, gas, nonce) is opaque payload. -/
structure Transaction where
  gasPrice : Option Numbers
  maxPriorityFeePerGas : Option Numbers
  maxFeePerGas : Option Numbers
  payload : Nat
deriving DecidableEq, Repr

/-- `formatTransaction` with `{number: FMT_NUMBER.HEX, bytes: FMT_BYTES.HEX}`:
every present numeric field is converted to hex representation; absent
fields stay absent. -/
def formatTransaction (tx : Transaction) : Transaction :=
  { gasPrice := tx.gasPrice.map toHex
  , maxPriorityFeePerGas := tx.maxPriorityFeePerGas.map toHex
  , maxFeePerGas := tx.maxFeePerGas.map toHex
  , payload := tx.payload }

/-- The object returned by `getTransactionGasPricing`: the pricing fields
it chose to populate (a legacy price, or a fee market pair, or nothing). -/
structure PricingFields where
  gasPrice : Option Numbers
  maxPriorityFeePerGas : Option Numbers
  maxFeePerGas : Option Numbers
deriving DecidableEq, Repr

/-- The object spread `{..._transaction, ...pricing}`: a field present on
the pricing object overrides the transaction field, an absent one keeps it. -/
def spreadPricing (tx : Transaction) (p : PricingFields) : Transaction :=
  { gasPrice := (p.gasPrice).orElse (fun _ => tx.gasPrice)
  , maxPriorityFeePerGas := (p.maxPriorityFeePerGas).orElse (fun _ => tx.maxPriorityFeePerGas)
  , maxFeePerGas := (p.maxFeePerGas).orElse (fun _ => tx.maxFeePerGas)
  , payload := tx.payload }

/-- `SendTransactionOptions`, with its optional `ignoreGasPricing` flag. -/
structure SendTransactionOptions where
  ignoreGasPricing : Option Bool
deriving DecidableEq, Repr

/-- The boolean value of `options?.ignoreGasPricing` (undefined is falsy). -/
def ignoreGasPricingOf (opts : Option SendTransactionOptions) : Bool :=
  (opts.bind (fun o => o.ignoreGasPricing)).getD false

/-- The guard of the gas pricing block in `sendTransaction`:
`!options?.ignoreGasPricing && transaction.gasPrice === undefined &&
(transaction.maxPriorityFeePerGas === undefined || transaction.maxFeePerGas === undefined)`. -/
def needsGasPricing (tx : Transaction) (opts : Option SendTransactionOptions) : Bool :=
  !(ignoreGasPricingOf opts) && tx.gasPrice.isNone &&
    (tx.maxPriorityFeePerGas.isNone || tx.maxFeePerGas.isNone)

/-- A transaction receipt as far as the pipeline looks at it. -/
structure Receipt where
  blockNumber : Nat
  status : Bool
deriving DecidableEq, Repr

/-- A lifecycle event emitted on a `sendTransaction` handle, with the
payload each emission call site passes. -/
inductive Event
  | sending : Transaction → Event
  | sent : Transaction → Event
  | transactionHash : Nat → Event
  | receipt : Receipt → Event
  | confirmation : Nat → Event
  | error : Err → Event
deriving DecidableEq, Repr

/-- The tag of an event. -/
def tagOf : Event → Tag
  | Event.sending _ => Tag.sending
  | Event.sent _ => Tag.sent
  | Event.transactionHash _ => Tag.transactionHash
  | Event.receipt _ => Tag.receipt
  | Event.confirmation _ => Tag.confirmation
  | Event.error _ => Tag.error

/-- Stage rank of an event within one submission. -/
def rank : Event → Nat
  | Event.sending _ => 0
  | Event.sent _ => 1
  | Event.transactionHash _ => 2
  | Event.receipt _ => 3
  | Event.confirmation _ => 4
  | Event.error _ => 5

/-- Stage order between two emitted events: a strictly earlier stage, or
two confirmation events (the only tag emitted repeatedly). -/
def EvLE (a b : Event) : Prop :=
  rank a < rank b ∨ (rank a = 4 ∧ rank b = 4)

/-- A lifecycle event emitted on a `sendSignedTransaction` handle; its
sending and sent events carry the raw signed bytes. -/
inductive SEvent
  | sending : Nat → SEvent
  | sent : Nat → SEvent
  | transactionHash : Nat → SEvent
  | receipt : Receipt → SEvent
  | confirmation : Nat → SEvent
  | error : Err → SEvent
deriving DecidableEq, Repr

/-- The tag of a signed path event. -/
def stagOf : SEvent → Tag
  | SEvent.sending _ => Tag.sending
  | SEvent.sent _ => Tag.sent
  | SEvent.transactionHash _ => Tag.transactionHash
  | SEvent.receipt _ => Tag.receipt
  | SEvent.confirmation _ => Tag.confirmation
  | SEvent.error _ => Tag.error

/-- Stage rank of a signed path event. -/
def srank : SEvent → Nat
  | SEvent.sending _ => 0
  | SEvent.sent _ => 1
  | SEvent.transactionHash _ => 2
  | SEvent.receipt _ => 3
  | SEvent.confirmation _ => 4
  | SEvent.error _ => 5

/-- Stage order between two signed path events. -/
def SEvLE (a b : SEvent) : Prop :=
  srank a < srank b ∨ (srank a = 4 ∧ srank b = 4)

/-- Outcomes of the remote calls one submission can make. `Except.error`
models the call raising; `getTransactionReceiptRpc = Except.ok none`
models the null receipt of a transaction not yet included. The
confirmation counts the watcher would report are `confirmationsSeen`. -/
structure Oracle where
  getTransactionGasPricing : Except Err PricingFields
  sendTransactionRpc : Except Err Nat
  sendRawTransactionRpc : Except Err Nat
  getTransactionReceiptRpc : Except Err (Option Receipt)
  waitForTransactionReceipt : Except Err Receipt
  confirmationsSeen : List Nat

/-- The receipt acquisition sequence of both paths: one immediate
`getTransactionReceipt` query; on a null result, fall back to
`waitForTransactionReceipt`. -/
def resolveReceipt (o : Oracle) : Except Err Receipt :=
  match o.getTransactionReceiptRpc with
  | Except.error e => Except.error e
  | Except.ok (some r) => Except.ok r
  | Except.ok none => o.waitForTransactionReceipt

/-- The guarded `sending` emission of `sendTransaction`: emitted only when
`listenerCount` for the sending tag is positive. -/
def sendingEvents (L : Tag → Nat) (tx1 : Transaction) : List Event :=
  if 0 < L Tag.sending then [Event.sending tx1] else []

/-- The trace prefix once the broadcast returned a hash: the guarded
`sending`, `sent` and `transactionHash` emissions in program order. -/
def hashedEvents (L : Tag → Nat) (tx1 : Transaction) (h : Nat) : List Event :=
  sendingEvents L tx1 ++
    (if 0 < L Tag.sent then [Event.sent tx1] else []) ++
    (if 0 < L Tag.transactionHash then [Event.transactionHash h] else [])

/-- Result of running the deferred async body of one submission: the
emitted trace, the terminal settlement (`resolve` argument, if reached),
the rejection that escaped the discarded inner promise (if any), and
which stages were entered. -/
structure SendTxRun where
  events : List Event
  resolved : Option Receipt
  unhandledRejection : Option Err
  pricingInvoked : Bool
  broadcastIssued : Bool
  broadcastArg : Option Transaction
  watcherInvoked : Bool
deriving DecidableEq, Repr

/-- The body of `sendTransaction` from the `sending` emission on, applied
to the transaction `tx1` as it stands after the pricing block, with
`pInv` recording whether the pricing block ran. Each `Except.error`
branch reproduces the code raising inside the discarded async closure:
no further code runs, `resolve` is never called, no error event is
emitted, and the rejection escapes unhandled. -/
def afterPricing (o : Oracle) (L : Tag → Nat) (tx1 : Transaction) (pInv : Bool) : SendTxRun :=
  match o.sendTransactionRpc with
  | Except.error e =>
    { events := sendingEvents L tx1, resolved := none, unhandledRejection := some e
    , pricingInvoked := pInv, broadcastIssued := true, broadcastArg := some tx1
    , watcherInvoked := false }
  | Except.ok h =>
    match resolveReceipt o with
    | Except.error e =>
      { events := hashedEvents L tx1 h, resolved := none, unhandledRejection := some e
      , pricingInvoked := pInv, broadcastIssued := true, broadcastArg := some tx1
      , watcherInvoked := false }
    | Except.ok r =>
      if 0 < L Tag.confirmation then
        { events := (hashedEvents L tx1 h ++ [Event.receipt r]) ++
            o.confirmationsSeen.map Event.confirmation
        , resolved := some r, unhandledRejection := none
        , pricingInvoked := pInv, broadcastIssued := true, broadcastArg := some tx1
        , watcherInvoked := true }
      else
        { events := hashedEvents L tx1 h ++ [Event.receipt r]
        , resolved := some r, unhandledRejection := none
        , pricingInvoked := pInv, broadcastIssued := true, broadcastArg := some tx1
        , watcherInvoked := false }

/-- The deferred async body of `sendTransaction`: run the pricing block
under its guard, then proceed to broadcast. A pricing failure raises
before the broadcast call, so the run records no events, no settlement,
no broadcast, and the escaped pricing error. -/
def sendTransactionBody (o : Oracle) (L : Tag → Nat) (transaction : Transaction)
    (opts : Option SendTransactionOptions) : SendTxRun :=
  if needsGasPricing transaction opts then
    match o.getTransactionGasPricing with
    | Except.error e =>
      { events := [], resolved := none, unhandledRejection := some e
      , pricingInvoked := true, broadcastIssued := false, broadcastArg := none
      , watcherInvoked := false }
    | Except.ok p =>
      afterPricing o L (spreadPricing (formatTransaction transaction) p) true
  else
    afterPricing o L (formatTransaction transaction) false

/-- The unconditional trace prefix of `sendSignedTransaction` once the raw
broadcast returned a hash. -/
def signedEvents (transaction h : Nat) : List SEvent :=
  [SEvent.sending transaction, SEvent.sent transaction, SEvent.transactionHash h]

/-- Result of running the deferred async body of `sendSignedTransaction`. -/
structure SignedRun where
  events : List SEvent
  resolved : Option Receipt
  unhandledRejection : Option Err
  pricingInvoked : Bool
  broadcastIssued : Bool
  watcherInvoked : Bool
deriving DecidableEq, Repr

/-- The deferred async body of `sendSignedTransaction`: emits `sending`,
broadcasts the raw bytes, emits `sent` and `transactionHash`, acquires
the receipt, emits `receipt`, resolves, and always starts the
confirmation watch. None of its emissions consult the listener table
`L`, and no pricing block exists on this path. -/
def sendSignedTransactionBody (o : Oracle) (L : Tag → Nat) (transaction : Nat) : SignedRun :=
  match o.sendRawTransactionRpc with
  | Except.error e =>
    { events := [SEvent.sending transaction], resolved := none, unhandledRejection := some e
    , pricingInvoked := false, broadcastIssued := true, watcherInvoked := false }
  | Except.ok h =>
    match resolveReceipt o with
    | Except.error e =>
      { events := signedEvents transaction h, resolved := none, unhandledRejection := some e
      , pricingInvoked := false, broadcastIssued := true, watcherInvoked := false }
    | Except.ok r =>
      { events := (signedEvents transaction h ++ [SEvent.receipt r]) ++
          o.confirmationsSeen.map SEvent.confirmation
      , resolved := some r, unhandledRejection := none
      , pricingInvoked := false, broadcastIssued := true, watcherInvoked := true }

/-- The handle a submission call returns: the events already emitted when
the call returns to the caller, and the deferred task `setImmediate`
scheduled, parameterised by the listener counts registered when the next
tick runs it. -/
structure SubmitHandle (Ev R : Type) where
  eventsBeforeReturn : List Ev
  deferredTask : (Tag → Nat) → R

/-- `sendTransaction`: constructs the PromiEvent whose executor only
schedules the async body via `setImmediate`, then returns the handle;
nothing is emitted synchronously. -/
def sendTransaction (o : Oracle) (transaction : Transaction)
    (opts : Option SendTransactionOptions) : SubmitHandle Event SendTxRun :=
  { eventsBeforeReturn := []
  , deferredTask := fun L => sendTransactionBody o L transaction opts }

/-- `sendSignedTransaction`: same shape, for the pre-signed bytes path. -/
def sendSignedTransaction (o : Oracle) (transaction : Nat) : SubmitHandle SEvent SignedRun :=
  { eventsBeforeReturn := []
  , deferredTask := fun L => sendSignedTransactionBody o L transaction }

/-- Events of a trace delivered to the listeners registered in `L`: an
emission reaches exactly the listeners of its tag present at that moment. -/
def deliveredTo (L : Tag → Nat) (evs : List Event) : List Event :=
  evs.filter (fun e => decide (0 < L (tagOf e)))

/-- Signed path variant of `deliveredTo`. -/
def sdeliveredTo (L : Tag → Nat) (evs : List SEvent) : List SEvent :=
  evs.filter (fun e => decide (0 < L (stagOf e)))

/-- Modelled from the spec: the Receipt Poller (the implementation of
`waitForTransactionReceipt` is not under src). It repeatedly queries for
the receipt; a null receipt is not an error and triggers the next
attempt; any error of the query itself is forwarded immediately; and
exhausting the attempt budget with the receipt still absent yields the
timeout failure. `query k` is the outcome of attempt `k`. -/
def pollReceipt (query : Nat → Except Err (Option Receipt)) : Nat → Nat → Except Err Receipt
  | 0, _ => Except.error Err.timeout
  | fuel + 1, k =>
    match query k with
    | Except.error e => Except.error e
    | Except.ok (some r) => Except.ok r
    | Except.ok none => pollReceipt query fuel (k + 1)

/-- A listener together with the instant it was attached to the handle. -/
structure AttachedListener where
  tag : Tag
  attachTime : Nat
deriving DecidableEq, Repr

/-- Modelled from the spec: the handle event emitter (PromiEvent is not
under src) keeps a listener registration table consulted at emission time
only, with no buffering and no replay; an emission at instant `t` is
delivered to exactly the listeners of its tag whose attachment happened
at or before `t`. `emissions` is the timestamped emission log of one
handle. -/
def deliveredEmissions (emissions : List (Nat × Tag)) (l : AttachedListener) :
    List (Nat × Tag) :=
  emissions.filter (fun p => decide (p.2 = l.tag) && decide (l.attachTime ≤ p.1))

/-- An HTTP RPC request as `Web3RequestManager.send` receives it. -/
structure RpcRequest where
  id : Option Nat
  method : String
  jsonrpc : String
  params : List String
deriving DecidableEq, Repr

/-- Optional per-call RPC options of the typed wrapper methods. -/
structure HttpRpcOptions where
  id : Option Nat
  jsonrpc : Option String
deriving DecidableEq, Repr

/-- The default JSON RPC version constant of the wrapper class. -/
def DEFAULT_JSON_RPC_VERSION : String := "2.0"

/-- The request object `Web3Eth.getSha3` passes to the request manager:
the rpcOptions spread, then method, jsonrpc and an empty params list; the
`data` argument is not referenced. -/
def getSha3Request (data : String) (rpcOptions : Option HttpRpcOptions) : RpcRequest :=
  { id := rpcOptions.bind (fun o => o.id)
  , method := "eth_sha3"
  , jsonrpc := (rpcOptions.bind (fun o => o.jsonrpc)).getD DEFAULT_JSON_RPC_VERSION
  , params := [] }

/-- `Web3Eth.getSha3` against a node modelled as a function from requests
to results: it returns whatever the node answers to its request. -/
def getSha3 (node : RpcRequest → String) (data : String)
    (rpcOptions : Option HttpRpcOptions) : String :=
  node (getSha3Request data rpcOptions)

/-- A transaction with a legacy gas price already set (the pricing guard
is false for it). -/
def txPriced : Transaction :=
  { gasPrice := some (Numbers.dec 1), maxPriorityFeePerGas := none
  , maxFeePerGas := none, payload := 0 }

/-- A transaction with no pricing fields at all (the pricing guard is
true for it when pricing is not disabled). -/
def txEmpty : Transaction :=
  { gasPrice := none, maxPriorityFeePerGas := none, maxFeePerGas := none, payload := 0 }

/-- A concrete receipt. -/
def rcpt1 : Receipt := { blockNumber := 10, status := true }

/-- A pricing result populating nothing. -/
def pricingNone : PricingFields :=
  { gasPrice := none, maxPriorityFeePerGas := none, maxFeePerGas := none }

/-- An oracle on which every stage succeeds immediately. -/
def oracleHappy : Oracle :=
  { getTransactionGasPricing := Except.ok pricingNone
  , sendTransactionRpc := Except.ok 5
  , sendRawTransactionRpc := Except.ok 5
  , getTransactionReceiptRpc := Except.ok (some rcpt1)
  , waitForTransactionReceipt := Except.ok rcpt1
  , confirmationsSeen := [1, 2] }

/-- An oracle whose broadcast calls raise a transport error. -/
def oracleBroadcastFail : Oracle :=
  { getTransactionGasPricing := Except.ok pricingNone
  , sendTransactionRpc := Except.error (Err.transport 7)
  , sendRawTransactionRpc := Except.error (Err.transport 7)
  , getTransactionReceiptRpc := Except.ok none
  , waitForTransactionReceipt := Except.error Err.timeout
  , confirmationsSeen := [] }

/-- An oracle whose gas pricing query raises. -/
def oraclePricingFail : Oracle :=
  { getTransactionGasPricing := Except.error (Err.pricingFailure 3)
  , sendTransactionRpc := Except.ok 5
  , sendRawTransactionRpc := Except.ok 5
  , getTransactionReceiptRpc := Except.ok (some rcpt1)
  , waitForTransactionReceipt := Except.ok rcpt1
  , confirmationsSeen := [] }

/-- An oracle on which every receipt poll returns null until the poller
deadline of three attempts. -/
def oracleAllNull : Oracle :=
  { getTransactionGasPricing := Except.ok pricingNone
  , sendTransactionRpc := Except.ok 5
  , sendRawTransactionRpc := Except.ok 5
  , getTransactionReceiptRpc := Except.ok none
  , waitForTransactionReceipt := pollReceipt (fun _ => Except.ok none) 3 0
  , confirmationsSeen := [] }

/-- One listener registered for every tag. -/
def oneListener : Tag → Nat := fun _ => 1

/-- No listener registered for any tag. -/
def noListeners : Tag → Nat := fun _ => 0

theorem mem_guard {α : Type} {c : Prop} [Decidable c] {e x : α}
    (h : x ∈ (if c then [e] else [])) : x = e := by
  by_cases hc : c
  · simpa [hc] using h
  · simp [hc] at h

theorem pairwise_guard {α : Type} {R : α → α → Prop} {c : Prop} [Decidable c] {e : α} :
    List.Pairwise R (if c then [e] else []) := by
  by_cases hc : c <;> simp [hc]

theorem evle_of_lt {a b : Event} (h : rank a < rank b) : EvLE a b := Or.inl h

theorem mem_sendingEvents {L : Tag → Nat} {tx1 : Transaction} {x : Event}
    (h : x ∈ sendingEvents L tx1) : x = Event.sending tx1 := by
  unfold sendingEvents at h
  exact mem_guard h

theorem rank_le_of_mem_hashedEvents {L : Tag → Nat} {tx1 : Transaction} {h : Nat} {x : Event}
    (hx : x ∈ hashedEvents L tx1 h) : rank x ≤ 2 := by
  unfold hashedEvents at hx
  rcases List.mem_append.mp hx with hx | hx
  · rcases List.mem_append.mp hx with hx | hx
    · rw [mem_sendingEvents hx]; simp [rank]
    · rw [mem_guard hx]; simp [rank]
  · rw [mem_guard hx]; simp [rank]

theorem pairwise_hashedEvents (L : Tag → Nat) (tx1 : Transaction) (h : Nat) :
    List.Pairwise EvLE (hashedEvents L tx1 h) := by
  unfold hashedEvents sendingEvents
  refine List.pairwise_append.mpr
    ⟨List.pairwise_append.mpr ⟨pairwise_guard, pairwise_guard, ?_⟩, pairwise_guard, ?_⟩
  · intro a ha b hb
    rw [mem_guard ha, mem_guard hb]
    exact evle_of_lt (by simp [rank])
  · intro a ha b hb
    rw [mem_guard hb]
    rcases List.mem_append.mp ha with ha | ha
    · rw [mem_guard ha]; exact evle_of_lt (by simp [rank])
    · rw [mem_guard ha]; exact evle_of_lt (by simp [rank])

theorem pairwise_confMap (confs : List Nat) :
    List.Pairwise EvLE (confs.map Event.confirmation) := by
  induction confs with
  | nil => simp
  | cons c cs ih =>
    simp only [List.map_cons]
    refine List.Pairwise.cons ?_ ih
    intro b hb
    rcases List.mem_map.mp hb with ⟨n, _, rfl⟩
    exact Or.inr ⟨rfl, rfl⟩

theorem pairwise_minedEvents (L : Tag → Nat) (tx1 : Transaction) (h : Nat) (r : Receipt) :
    List.Pairwise EvLE (hashedEvents L tx1 h ++ [Event.receipt r]) := by
  refine List.pairwise_append.mpr ⟨pairwise_hashedEvents L tx1 h, by simp, ?_⟩
  intro a ha b hb
  rw [List.mem_singleton.mp hb]
  refine evle_of_lt ?_
  have h2 := rank_le_of_mem_hashedEvents ha
  have h3 : rank (Event.receipt r) = 3 := rfl
  omega

theorem pairwise_successEvents (L : Tag → Nat) (tx1 : Transaction) (h : Nat) (r : Receipt)
    (confs : List Nat) :
    List.Pairwise EvLE ((hashedEvents L tx1 h ++ [Event.receipt r]) ++
      confs.map Event.confirmation) := by
  refine List.pairwise_append.mpr ⟨pairwise_minedEvents L tx1 h r, pairwise_confMap confs, ?_⟩
  intro a ha b hb
  rcases List.mem_map.mp hb with ⟨n, _, rfl⟩
  refine evle_of_lt ?_
  have h4 : rank (Event.confirmation n) = 4 := rfl
  rcases List.mem_append.mp ha with ha | ha
  · have h2 := rank_le_of_mem_hashedEvents ha
    omega
  · rw [List.mem_singleton.mp ha]
    simp [rank]

theorem afterPricing_fields (o : Oracle) (L : Tag → Nat) (tx1 : Transaction) (pInv : Bool) :
    (afterPricing o L tx1 pInv).pricingInvoked = pInv ∧
    (afterPricing o L tx1 pInv).broadcastArg = some tx1 ∧
    (afterPricing o L tx1 pInv).broadcastIssued = true := by
  unfold afterPricing
  rcases o.sendTransactionRpc with e | h
  · exact ⟨rfl, rfl, rfl⟩
  · rcases resolveReceipt o with e | r
    · exact ⟨rfl, rfl, rfl⟩
    · by_cases hc : 0 < L Tag.confirmation <;> simp [hc]

theorem afterPricing_pairwise (o : Oracle) (L : Tag → Nat) (tx1 : Transaction) (pInv : Bool) :
    List.Pairwise EvLE (afterPricing o L tx1 pInv).events := by
  unfold afterPricing
  rcases o.sendTransactionRpc with e | h
  · unfold sendingEvents
    exact pairwise_guard
  · rcases resolveReceipt o with e | r
    · exact pairwise_hashedEvents L tx1 h
    · by_cases hc : 0 < L Tag.confirmation
      · simp only [hc, if_true]
        exact pairwise_successEvents L tx1 h r o.confirmationsSeen
      · simp only [hc, if_false]
        exact pairwise_minedEvents L tx1 h r

theorem sevle_of_lt {a b : SEvent} (h : srank a < srank b) : SEvLE a b := Or.inl h

theorem srank_le_of_mem_signedEvents {b h : Nat} {x : SEvent}
    (hx : x ∈ signedEvents b h) : srank x ≤ 2 := by
  unfold signedEvents at hx
  simp only [List.mem_cons, List.not_mem_nil, or_false] at hx
  rcases hx with rfl | rfl | rfl <;> simp [srank]

theorem pairwise_signedEvents (b h : Nat) : List.Pairwise SEvLE (signedEvents b h) := by
  unfold signedEvents
  refine List.Pairwise.cons ?_ (List.Pairwise.cons ?_ (List.Pairwise.cons ?_ List.Pairwise.nil))
  · intro x hx
    simp only [List.mem_cons, List.not_mem_nil, or_false] at hx
    rcases hx with rfl | rfl
    · exact sevle_of_lt (by simp [srank])
    · exact sevle_of_lt (by simp [srank])
  · intro x hx
    simp only [List.mem_cons, List.not_mem_nil, or_false] at hx
    rcases hx with rfl
    exact sevle_of_lt (by simp [srank])
  · intro x hx
    simp at hx

theorem pairwise_sconfMap (confs : List Nat) :
    List.Pairwise SEvLE (confs.map SEvent.confirmation) := by
  induction confs with
  | nil => simp
  | cons c cs ih =>
    simp only [List.map_cons]
    refine List.Pairwise.cons ?_ ih
    intro x hx
    rcases List.mem_map.mp hx with ⟨n, _, rfl⟩
    exact Or.inr ⟨rfl, rfl⟩

theorem pairwise_signedMined (b h : Nat) (r : Receipt) :
    List.Pairwise SEvLE (signedEvents b h ++ [SEvent.receipt r]) := by
  refine List.pairwise_append.mpr ⟨pairwise_signedEvents b h, by simp, ?_⟩
  intro a ha x hx
  rw [List.mem_singleton.mp hx]
  refine sevle_of_lt ?_
  have h2 := srank_le_of_mem_signedEvents ha
  have h3 : srank (SEvent.receipt r) = 3 := rfl
  omega

theorem pairwise_signedSuccess (b h : Nat) (r : Receipt) (confs : List Nat) :
    List.Pairwise SEvLE ((signedEvents b h ++ [SEvent.receipt r]) ++
      confs.map SEvent.confirmation) := by
  refine List.pairwise_append.mpr ⟨pairwise_signedMined b h r, pairwise_sconfMap confs, ?_⟩
  intro a ha x hx
  rcases List.mem_map.mp hx with ⟨n, _, rfl⟩
  refine sevle_of_lt ?_
  have h4 : srank (SEvent.confirmation n) = 4 := rfl
  rcases List.mem_append.mp ha with ha | ha
  · have h2 := srank_le_of_mem_signedEvents ha
    omega
  · rw [List.mem_singleton.mp ha]
    simp [srank]

theorem needsGasPricing_iff (tx : Transaction) (opts : Option SendTransactionOptions) :
    needsGasPricing tx opts = true ↔
      (ignoreGasPricingOf opts = false ∧ tx.gasPrice = none ∧
        (tx.maxPriorityFeePerGas = none ∨ tx.maxFeePerGas = none)) := by
  unfold needsGasPricing
  simp [Option.isNone_iff_eq_none, and_assoc]

theorem sendTransactionBody_eq_pricingFail (o : Oracle) (L : Tag → Nat) (tx : Transaction)
    (opts : Option SendTransactionOptions) (e : Err)
    (hn : needsGasPricing tx opts = true)
    (hg : o.getTransactionGasPricing = Except.error e) :
    sendTransactionBody o L tx opts =
      { events := [], resolved := none, unhandledRejection := some e
      , pricingInvoked := true, broadcastIssued := false, broadcastArg := none
      , watcherInvoked := false } := by
  simp [sendTransactionBody, hn, hg]

theorem sendTransactionBody_eq_pricingOk (o : Oracle) (L : Tag → Nat) (tx : Transaction)
    (opts : Option SendTransactionOptions) (p : PricingFields)
    (hn : needsGasPricing tx opts = true)
    (hg : o.getTransactionGasPricing = Except.ok p) :
    sendTransactionBody o L tx opts =
      afterPricing o L (spreadPricing (formatTransaction tx) p) true := by
  simp [sendTransactionBody, hn, hg]

theorem sendTransactionBody_eq_noPricing (o : Oracle) (L : Tag → Nat) (tx : Transaction)
    (opts : Option SendTransactionOptions)
    (hn : needsGasPricing tx opts = false) :
    sendTransactionBody o L tx opts = afterPricing o L (formatTransaction tx) false := by
  simp [sendTransactionBody, hn]

theorem tag_ne_error_of_mem_hashedEvents {L : Tag → Nat} {tx1 : Transaction} {h : Nat}
    {x : Event} (hx : x ∈ hashedEvents L tx1 h) : tagOf x ≠ Tag.error := by
  unfold hashedEvents at hx
  rcases List.mem_append.mp hx with hx | hx
  · rcases List.mem_append.mp hx with hx | hx
    · rw [mem_sendingEvents hx]; simp [tagOf]
    · rw [mem_guard hx]; simp [tagOf]
  · rw [mem_guard hx]; simp [tagOf]

theorem afterPricing_broadcast_error (o : Oracle) (L : Tag → Nat) (tx1 : Transaction)
    (pInv : Bool) (e : Err) (hb : o.sendTransactionRpc = Except.error e) :
    (afterPricing o L tx1 pInv).unhandledRejection = some e ∧
    (afterPricing o L tx1 pInv).resolved = none ∧
    (∀ ev ∈ (afterPricing o L tx1 pInv).events, tagOf ev ≠ Tag.error) ∧
    (afterPricing o L tx1 pInv).watcherInvoked = false := by
  unfold afterPricing
  rw [hb]
  refine ⟨rfl, rfl, ?_, rfl⟩
  intro ev hev
  rw [mem_sendingEvents hev]
  simp [tagOf]

theorem afterPricing_watcher_iff (o : Oracle) (L : Tag → Nat) (tx1 : Transaction)
    (pInv : Bool) (r : Receipt)
    (h : (afterPricing o L tx1 pInv).resolved = some r) :
    ((afterPricing o L tx1 pInv).watcherInvoked = true ↔ 0 < L Tag.confirmation) := by
  unfold afterPricing at *
  rcases hb : o.sendTransactionRpc with e | hh
  · rw [hb] at h
    simp at h
  · rcases hr : resolveReceipt o with e | rr
    · rw [hb, hr] at h
      simp at h
    · by_cases hc : 0 < L Tag.confirmation
      · simp [hc]
      · simp [hc]

theorem signed_watcher_of_resolved (o : Oracle) (L : Tag → Nat) (b : Nat) (rs : Receipt)
    (h : (sendSignedTransactionBody o L b).resolved = some rs) :
    (sendSignedTransactionBody o L b).watcherInvoked = true := by
  unfold sendSignedTransactionBody at *
  rcases hb : o.sendRawTransactionRpc with e | hh
  · rw [hb] at h
    simp at h
  · rcases hr : resolveReceipt o with e | rr
    · rw [hb, hr] at h
      simp at h
    · rfl

theorem sending_mem_hashedEvents_iff (L : Tag → Nat) (tx1 : Transaction) (h : Nat) :
    Event.sending tx1 ∈ hashedEvents L tx1 h ↔ 0 < L Tag.sending := by
  unfold hashedEvents sendingEvents
  by_cases h1 : 0 < L Tag.sending <;> by_cases h2 : 0 < L Tag.sent <;>
    by_cases h3 : 0 < L Tag.transactionHash <;> simp [h1, h2, h3]

theorem sent_mem_hashedEvents_iff (L : Tag → Nat) (tx1 : Transaction) (h : Nat) :
    Event.sent tx1 ∈ hashedEvents L tx1 h ↔ 0 < L Tag.sent := by
  unfold hashedEvents sendingEvents
  by_cases h1 : 0 < L Tag.sending <;> by_cases h2 : 0 < L Tag.sent <;>
    by_cases h3 : 0 < L Tag.transactionHash <;> simp [h1, h2, h3]

theorem hash_mem_hashedEvents_iff (L : Tag → Nat) (tx1 : Transaction) (h : Nat) :
    Event.transactionHash h ∈ hashedEvents L tx1 h ↔ 0 < L Tag.transactionHash := by
  unfold hashedEvents sendingEvents
  by_cases h1 : 0 < L Tag.sending <;> by_cases h2 : 0 < L Tag.sent <;>
    by_cases h3 : 0 < L Tag.transactionHash <;> simp [h1, h2, h3]

theorem confirmation_not_mem_hashedEvents (L : Tag → Nat) (tx1 : Transaction) (h n : Nat) :
    Event.confirmation n ∉ hashedEvents L tx1 h := by
  intro hx
  have h2 := rank_le_of_mem_hashedEvents hx
  have h3 : rank (Event.confirmation n) = 4 := rfl
  omega

theorem pollReceipt_all_null (q : Nat → Except Err (Option Receipt)) :
    ∀ d k, (∀ i, i < d → q (k + i) = Except.ok none) →
      pollReceipt q d k = Except.error Err.timeout := by
  intro d
  induction d with
  | zero => intro k _; rfl
  | succ n ih =>
    intro k hq
    have h0 : q k = Except.ok none := by simpa using hq 0 (Nat.succ_pos n)
    simp only [pollReceipt, h0]
    refine ih (k + 1) ?_
    intro i hi
    have h1 := hq (i + 1) (Nat.succ_lt_succ hi)
    rw [show k + 1 + i = k + (i + 1) by omega]
    exact h1

theorem afterPricing_eq_success (o : Oracle) (L : Tag → Nat) (tx1 : Transaction) (pInv : Bool)
    (h : Nat) (r : Receipt)
    (hb : o.sendTransactionRpc = Except.ok h)
    (hres : resolveReceipt o = Except.ok r) :
    afterPricing o L tx1 pInv =
      if 0 < L Tag.confirmation then
        { events := (hashedEvents L tx1 h ++ [Event.receipt r]) ++
            o.confirmationsSeen.map Event.confirmation
        , resolved := some r, unhandledRejection := none
        , pricingInvoked := pInv, broadcastIssued := true, broadcastArg := some tx1
        , watcherInvoked := true }
      else
        { events := hashedEvents L tx1 h ++ [Event.receipt r]
        , resolved := some r, unhandledRejection := none
        , pricingInvoked := pInv, broadcastIssued := true, broadcastArg := some tx1
        , watcherInvoked := false } := by
  unfold afterPricing
  rw [hb, hres]

theorem sendSignedBody_eq_success (o : Oracle) (L : Tag → Nat) (b hs : Nat) (r : Receipt)
    (hraw : o.sendRawTransactionRpc = Except.ok hs)
    (hres : resolveReceipt o = Except.ok r) :
    sendSignedTransactionBody o L b =
      { events := (signedEvents b hs ++ [SEvent.receipt r]) ++
          o.confirmationsSeen.map SEvent.confirmation
      , resolved := some r, unhandledRejection := none
      , pricingInvoked := false, broadcastIssued := true, watcherInvoked := true } := by
  unfold sendSignedTransactionBody
  rw [hraw, hres]

/-- C4: within one submission, on both the unsigned and the pre-signed
path, the emitted lifecycle trace is ordered by stage: `sending` precedes
`sent` and `transactionHash`, these precede `receipt`, and `receipt`
precedes every `confirmation`; no event of a later stage is ever emitted
before one of an earlier stage on the same handle, and only the
confirmation stage repeats. -/
theorem submission_event_order (o : Oracle) (L : Tag → Nat) (tx : Transaction)
    (opts : Option SendTransactionOptions) (b : Nat) :
    List.Pairwise EvLE (sendTransactionBody o L tx opts).events ∧
    List.Pairwise SEvLE (sendSignedTransactionBody o L b).events := by
  constructor
  · unfold sendTransactionBody
    by_cases hn : needsGasPricing tx opts = true
    · rw [if_pos hn]
      rcases hg : o.getTransactionGasPricing with e | p
      · simp
      · exact afterPricing_pairwise o L (spreadPricing (formatTransaction tx) p) true
    · rw [if_neg hn]
      exact afterPricing_pairwise o L (formatTransaction tx) false
  · unfold sendSignedTransactionBody
    rcases o.sendRawTransactionRpc with e | hh
    · simp
    · rcases resolveReceipt o with e | r
      · exact pairwise_signedEvents b hh
      · exact pairwise_signedSuccess b hh r o.confirmationsSeen

/-- C3: gas pricing resolution is invoked if and only if automatic
pricing is not disabled, the legacy gasPrice field is unset and the fee
market pair is not completely set; when that guard is false the formatted
transaction reaches the broadcast call with its pricing fields untouched
by any resolver; and the pre-signed bytes path never invokes pricing
resolution. -/
theorem gasPricing_guard_iff (o : Oracle) (L : Tag → Nat) (tx : Transaction)
    (opts : Option SendTransactionOptions) (b : Nat) :
    ((sendTransactionBody o L tx opts).pricingInvoked = true ↔
      (ignoreGasPricingOf opts = false ∧ tx.gasPrice = none ∧
        (tx.maxPriorityFeePerGas = none ∨ tx.maxFeePerGas = none))) ∧
    (needsGasPricing tx opts = false →
      (sendTransactionBody o L tx opts).broadcastArg = some (formatTransaction tx)) ∧
    (sendSignedTransactionBody o L b).pricingInvoked = false := by
  refine ⟨?_, ?_, ?_⟩
  · rw [← needsGasPricing_iff]
    by_cases hn : needsGasPricing tx opts = true
    · rcases hg : o.getTransactionGasPricing with e | p
      · rw [sendTransactionBody_eq_pricingFail o L tx opts e hn hg]
        simp [hn]
      · rw [sendTransactionBody_eq_pricingOk o L tx opts p hn hg]
        rw [(afterPricing_fields o L (spreadPricing (formatTransaction tx) p) true).1]
        simp [hn]
    · have hn2 : needsGasPricing tx opts = false := by
        revert hn
        cases needsGasPricing tx opts <;> simp
      rw [sendTransactionBody_eq_noPricing o L tx opts hn2]
      rw [(afterPricing_fields o L (formatTransaction tx) false).1]
      simp [hn2]
  · intro hn2
    rw [sendTransactionBody_eq_noPricing o L tx opts hn2]
    exact (afterPricing_fields o L (formatTransaction tx) false).2.1
  · unfold sendSignedTransactionBody
    rcases o.sendRawTransactionRpc with e | hh
    · rfl
    · rcases resolveReceipt o with e | r
      · rfl
      · rfl

/-- Witness for the C3 theorem at a transaction with a legacy gas price
already set: the guard is false and the formatted transaction reaches
broadcast unmodified. -/
theorem gasPricing_guard_iff_witness :
    needsGasPricing txPriced none = false ∧
    (sendTransactionBody oracleHappy oneListener txPriced none).broadcastArg =
      some (formatTransaction txPriced) :=
  ⟨by decide, (gasPricing_guard_iff oracleHappy oneListener txPriced none 9).2.1 (by decide)⟩

/-- C5 amended: a gas pricing failure raises before the broadcast call,
so the broadcast RPC is never issued and nothing is emitted; but the
failure is not surfaced through the handle: the terminal promise never
settles and the pricing error escapes as the unhandled rejection of the
discarded internal task. -/
theorem pricing_failure_aborts (o : Oracle) (L : Tag → Nat) (tx : Transaction)
    (opts : Option SendTransactionOptions) (e : Err)
    (hn : needsGasPricing tx opts = true)
    (hp : o.getTransactionGasPricing = Except.error e) :
    (sendTransactionBody o L tx opts).broadcastIssued = false ∧
    (sendTransactionBody o L tx opts).events = [] ∧
    (sendTransactionBody o L tx opts).resolved = none ∧
    (sendTransactionBody o L tx opts).unhandledRejection = some e := by
  rw [sendTransactionBody_eq_pricingFail o L tx opts e hn hp]
  exact ⟨rfl, rfl, rfl, rfl⟩

/-- Witness for the C5 theorem at a concrete pricing failure. -/
theorem pricing_failure_aborts_witness :
    needsGasPricing txEmpty none = true ∧
    (sendTransactionBody oraclePricingFail noListeners txEmpty none).broadcastIssued = false ∧
    (sendTransactionBody oraclePricingFail noListeners txEmpty none).unhandledRejection =
      some (Err.pricingFailure 3) :=
  ⟨by decide,
    (pricing_failure_aborts oraclePricingFail noListeners txEmpty none
      (Err.pricingFailure 3) (by decide) rfl).1,
    (pricing_failure_aborts oraclePricingFail noListeners txEmpty none
      (Err.pricingFailure 3) (by decide) rfl).2.2.2⟩

/-- Counterexample to C5 as stated: at a concrete pricing failure the
submission does abort before broadcast, but no pricing error is surfaced:
the terminal promise is never rejected (it never settles at all) and no
error event is emitted; the error only escapes as an unhandled rejection. -/
theorem pricing_failure_not_surfaced_cx :
    (sendTransactionBody oraclePricingFail oneListener txEmpty none).broadcastIssued = false ∧
    (sendTransactionBody oraclePricingFail oneListener txEmpty none).resolved = none ∧
    (∀ ev ∈ (sendTransactionBody oraclePricingFail oneListener txEmpty none).events,
      tagOf ev ≠ Tag.error) ∧
    (sendTransactionBody oraclePricingFail oneListener txEmpty none).unhandledRejection =
      some (Err.pricingFailure 3) := by decide

/-- C1 amended: an error raised by the RPC client during broadcast is
fatal to the submission, but it is not surfaced: the terminal promise
neither resolves nor rejects, no error event (nor any later stage event)
is emitted, and the error escapes as the unhandled rejection of the
discarded internal task. -/
theorem broadcast_error_unsurfaced (o : Oracle) (L : Tag → Nat) (tx : Transaction)
    (opts : Option SendTransactionOptions) (e : Err)
    (hb : o.sendTransactionRpc = Except.error e)
    (hbi : (sendTransactionBody o L tx opts).broadcastIssued = true) :
    (sendTransactionBody o L tx opts).unhandledRejection = some e ∧
    (sendTransactionBody o L tx opts).resolved = none ∧
    (∀ ev ∈ (sendTransactionBody o L tx opts).events, tagOf ev ≠ Tag.error) ∧
    (sendTransactionBody o L tx opts).watcherInvoked = false := by
  by_cases hn : needsGasPricing tx opts = true
  · rcases hg : o.getTransactionGasPricing with eg | p
    · rw [sendTransactionBody_eq_pricingFail o L tx opts eg hn hg] at hbi
      simp at hbi
    · rw [sendTransactionBody_eq_pricingOk o L tx opts p hn hg]
      exact afterPricing_broadcast_error o L (spreadPricing (formatTransaction tx) p) true e hb
  · have hn2 : needsGasPricing tx opts = false := by
      revert hn
      cases needsGasPricing tx opts <;> simp
    rw [sendTransactionBody_eq_noPricing o L tx opts hn2]
    exact afterPricing_broadcast_error o L (formatTransaction tx) false e hb

/-- Witness for the C1 theorem at a concrete broadcast failure. -/
theorem broadcast_error_unsurfaced_witness :
    oracleBroadcastFail.sendTransactionRpc = Except.error (Err.transport 7) ∧
    (sendTransactionBody oracleBroadcastFail noListeners txPriced none).unhandledRejection =
      some (Err.transport 7) :=
  ⟨rfl,
    (broadcast_error_unsurfaced oracleBroadcastFail noListeners txPriced none
      (Err.transport 7) rfl (by decide)).1⟩

/-- Counterexample to C1 as stated: at a concrete broadcast failure the
submission does not surface the error at all: the terminal promise never
settles (so it is not rejected with the error) and no error event is
emitted on the handle; the error escapes as an unhandled rejection. -/
theorem broadcast_error_swallowed_cx :
    (sendTransactionBody oracleBroadcastFail oneListener txPriced none).resolved = none ∧
    (∀ ev ∈ (sendTransactionBody oracleBroadcastFail oneListener txPriced none).events,
      tagOf ev ≠ Tag.error) ∧
    (sendTransactionBody oracleBroadcastFail oneListener txPriced none).unhandledRejection =
      some (Err.transport 7) := by decide

/-- C2 amended: on the unsigned request path, once the receipt resolves
the confirmation watcher is started if and only if a confirmation
listener is registered at that moment; on the pre-signed bytes path the
watcher is always started after the receipt, regardless of listeners. -/
theorem watcher_start_guard (o : Oracle) (L : Tag → Nat) (tx : Transaction)
    (opts : Option SendTransactionOptions) (b : Nat) (r rs : Receipt)
    (h1 : (sendTransactionBody o L tx opts).resolved = some r)
    (h2 : (sendSignedTransactionBody o L b).resolved = some rs) :
    ((sendTransactionBody o L tx opts).watcherInvoked = true ↔ 0 < L Tag.confirmation) ∧
    (sendSignedTransactionBody o L b).watcherInvoked = true := by
  constructor
  · by_cases hn : needsGasPricing tx opts = true
    · rcases hg : o.getTransactionGasPricing with e | p
      · rw [sendTransactionBody_eq_pricingFail o L tx opts e hn hg] at h1
        simp at h1
      · rw [sendTransactionBody_eq_pricingOk o L tx opts p hn hg] at h1 ⊢
        exact afterPricing_watcher_iff o L (spreadPricing (formatTransaction tx) p) true r h1
    · have hn2 : needsGasPricing tx opts = false := by
        revert hn
        cases needsGasPricing tx opts <;> simp
      rw [sendTransactionBody_eq_noPricing o L tx opts hn2] at h1 ⊢
      exact afterPricing_watcher_iff o L (formatTransaction tx) false r h1
  · exact signed_watcher_of_resolved o L b rs h2

/-- Witness for the C2 theorem at a concrete successful submission with
no listeners: the unsigned path does not start the watcher. -/
theorem watcher_start_guard_witness :
    (sendTransactionBody oracleHappy noListeners txPriced none).resolved = some rcpt1 ∧
    ((sendTransactionBody oracleHappy noListeners txPriced none).watcherInvoked = true ↔
      0 < noListeners Tag.confirmation) :=
  ⟨by decide,
    (watcher_start_guard oracleHappy noListeners txPriced none 9 rcpt1 rcpt1
      (by decide) (by decide)).1⟩

/-- Counterexample to C2 as stated: on the pre-signed bytes path the
confirmation watcher is invoked even though not a single confirmation
listener is registered on the handle. -/
theorem watcher_unconditional_cx :
    noListeners Tag.confirmation = 0 ∧
    (sendSignedTransactionBody oracleHappy noListeners 9).watcherInvoked = true := by decide

/-- C6: no lifecycle event is emitted synchronously before the submission
call returns its handle — both executors only schedule the body via
setImmediate — and every event the deferred body emits is delivered to
the listeners registered on the handle when the deferred tick runs, so a
caller attaching listeners immediately after the call observes every
event of the submission. -/
theorem no_synchronous_emission (o : Oracle) (tx : Transaction)
    (opts : Option SendTransactionOptions) (b : Nat) (L : Tag → Nat) :
    (sendTransaction o tx opts).eventsBeforeReturn = [] ∧
    (sendSignedTransaction o b).eventsBeforeReturn = [] ∧
    (∀ ev ∈ ((sendTransaction o tx opts).deferredTask L).events,
      0 < L (tagOf ev) →
        ev ∈ deliveredTo L ((sendTransaction o tx opts).deferredTask L).events) ∧
    (∀ ev ∈ ((sendSignedTransaction o b).deferredTask L).events,
      0 < L (stagOf ev) →
        ev ∈ sdeliveredTo L ((sendSignedTransaction o b).deferredTask L).events) := by
  refine ⟨rfl, rfl, ?_, ?_⟩
  · intro ev hev hl
    unfold deliveredTo
    rw [List.mem_filter]
    exact ⟨hev, decide_eq_true hl⟩
  · intro ev hev hl
    unfold sdeliveredTo
    rw [List.mem_filter]
    exact ⟨hev, decide_eq_true hl⟩

/-- Witness for the C6 theorem: a listener present from the start indeed
receives the receipt event of a concrete successful run. -/
theorem no_synchronous_emission_witness :
    Event.receipt rcpt1 ∈
      ((sendTransaction oracleHappy txPriced none).deferredTask oneListener).events ∧
    Event.receipt rcpt1 ∈
      deliveredTo oneListener
        ((sendTransaction oracleHappy txPriced none).deferredTask oneListener).events :=
  ⟨by decide,
    (no_synchronous_emission oracleHappy txPriced none 9 oneListener).2.2.1
      (Event.receipt rcpt1) (by decide) (by decide)⟩

/-- C7: with the listener table consulted at emission time only, an event
emitted strictly before a listener of its tag was attached is never
delivered to that listener (no replay), while an emission of the
matching tag at or after the attachment is delivered to it exactly as
often as it was emitted — in particular exactly once for a stage emitted
once. -/
theorem emitter_no_replay (emissions : List (Nat × Tag)) (l : AttachedListener)
    (p : Nat × Tag) :
    (p.1 < l.attachTime → (deliveredEmissions emissions l).count p = 0) ∧
    (p.2 = l.tag → l.attachTime ≤ p.1 →
      (deliveredEmissions emissions l).count p = emissions.count p) := by
  constructor
  · intro hlt
    rw [List.count_eq_zero]
    intro hmem
    unfold deliveredEmissions at hmem
    have h2 := (List.mem_filter.mp hmem).2
    simp only [Bool.and_eq_true, decide_eq_true_eq] at h2
    omega
  · intro ht hle
    unfold deliveredEmissions
    rw [List.count_filter]
    simp only [Bool.and_eq_true, decide_eq_true_eq]
    exact ⟨ht, hle⟩

/-- Witness for the C7 theorem: an emission at instant 0 is not delivered
to a listener of the same tag attached at instant 3, and the emission at
instant 5 of the tag it listens to is delivered exactly once. -/
theorem emitter_no_replay_witness :
    (0 : Nat) < 3 ∧
    (deliveredEmissions [(0, Tag.sending), (5, Tag.sending)]
      { tag := Tag.sending, attachTime := 3 }).count (0, Tag.sending) = 0 ∧
    (deliveredEmissions [(0, Tag.sending), (5, Tag.sending)]
      { tag := Tag.sending, attachTime := 3 }).count (5, Tag.sending) = 1 :=
  ⟨by decide,
    (emitter_no_replay [(0, Tag.sending), (5, Tag.sending)]
      { tag := Tag.sending, attachTime := 3 } (0, Tag.sending)).1 (by decide),
    by
      have h := (emitter_no_replay [(0, Tag.sending), (5, Tag.sending)]
        { tag := Tag.sending, attachTime := 3 } (5, Tag.sending)).2 (by decide) (by decide)
      rw [h]
      decide⟩

/-- C8 amended: when every poll attempt up to the deadline returns a null
receipt, the receipt poller fails with the timeout error — a distinct
constructor from the transport error, a null receipt never being treated
as one — but the rejection is not surfaced by the pipeline: the terminal
promise never settles (so it is not rejected with the timeout error
either), no error event is emitted, and the timeout escapes as the
unhandled rejection of the discarded internal task. -/
theorem receipt_timeout_not_surfaced (q : Nat → Except Err (Option Receipt)) (d : Nat)
    (o : Oracle) (L : Tag → Nat) (tx : Transaction) (opts : Option SendTransactionOptions)
    (h5 : Nat)
    (hq : ∀ i, i < d → q i = Except.ok none)
    (hw : o.waitForTransactionReceipt = pollReceipt q d 0)
    (hr : o.getTransactionReceiptRpc = Except.ok none)
    (hb : o.sendTransactionRpc = Except.ok h5)
    (hn : needsGasPricing tx opts = false) :
    pollReceipt q d 0 = Except.error Err.timeout ∧
    (∀ m, Err.timeout ≠ Err.transport m) ∧
    (∀ m, pollReceipt q d 0 ≠ Except.error (Err.transport m)) ∧
    (sendTransactionBody o L tx opts).resolved = none ∧
    (sendTransactionBody o L tx opts).unhandledRejection = some Err.timeout ∧
    (∀ ev ∈ (sendTransactionBody o L tx opts).events, tagOf ev ≠ Tag.error) := by
  have hpoll : pollReceipt q d 0 = Except.error Err.timeout :=
    pollReceipt_all_null q d 0 (by intro i hi; simpa using hq i hi)
  have hres : resolveReceipt o = Except.error Err.timeout := by
    unfold resolveReceipt
    rw [hr, hw, hpoll]
  rw [sendTransactionBody_eq_noPricing o L tx opts hn]
  unfold afterPricing
  rw [hb, hres]
  refine ⟨hpoll, fun m hm => Err.noConfusion hm, ?_, rfl, rfl, ?_⟩
  · intro m hm
    rw [hpoll] at hm
    exact Err.noConfusion (Except.error.inj hm)
  · intro ev hev
    exact tag_ne_error_of_mem_hashedEvents hev

/-- Witness for the C8 theorem at the concrete all-null oracle with a
three attempt deadline. -/
theorem receipt_timeout_not_surfaced_witness :
    oracleAllNull.getTransactionReceiptRpc = Except.ok none ∧
    (sendTransactionBody oracleAllNull oneListener txPriced none).unhandledRejection =
      some Err.timeout :=
  ⟨rfl,
    (receipt_timeout_not_surfaced (fun _ => Except.ok none) 3 oracleAllNull oneListener
      txPriced none 5 (fun i _ => rfl) rfl rfl rfl (by decide)).2.2.2.2.1⟩

/-- Counterexample to C8 as stated: on the concrete all-null oracle the
poller raises its timeout error, but the terminal promise is never
rejected with it: the run never settles, emits no error event, and the
timeout only escapes as an unhandled rejection. -/
theorem receipt_timeout_swallowed_cx :
    (sendTransactionBody oracleAllNull oneListener txPriced none).resolved = none ∧
    (∀ ev ∈ (sendTransactionBody oracleAllNull oneListener txPriced none).events,
      tagOf ev ≠ Tag.error) ∧
    (sendTransactionBody oracleAllNull oneListener txPriced none).unhandledRejection =
      some Err.timeout := by decide

/-- C9: in `sendTransaction`, on a run reaching inclusion the receipt
event is emitted and the terminal promise resolved unconditionally (even
with zero listeners), whereas `sending`, `sent` and `transactionHash` are
emitted exactly when a listener of that tag is registered, and a
confirmation event can only appear when a confirmation listener is
registered; `sendSignedTransaction` instead emits `sending`, `sent` and
`transactionHash` unconditionally. -/
theorem emission_conditionality (o : Oracle) (L : Tag → Nat) (tx : Transaction)
    (opts : Option SendTransactionOptions) (b h hs : Nat) (r : Receipt)
    (hn : needsGasPricing tx opts = false)
    (hb : o.sendTransactionRpc = Except.ok h)
    (hr : o.getTransactionReceiptRpc = Except.ok (some r))
    (hraw : o.sendRawTransactionRpc = Except.ok hs) :
    Event.receipt r ∈ (sendTransactionBody o L tx opts).events ∧
    (sendTransactionBody o L tx opts).resolved = some r ∧
    (Event.sending (formatTransaction tx) ∈ (sendTransactionBody o L tx opts).events ↔
      0 < L Tag.sending) ∧
    (Event.sent (formatTransaction tx) ∈ (sendTransactionBody o L tx opts).events ↔
      0 < L Tag.sent) ∧
    (Event.transactionHash h ∈ (sendTransactionBody o L tx opts).events ↔
      0 < L Tag.transactionHash) ∧
    ((∃ n, Event.confirmation n ∈ (sendTransactionBody o L tx opts).events) →
      0 < L Tag.confirmation) ∧
    SEvent.sending b ∈ (sendSignedTransactionBody o L b).events ∧
    SEvent.sent b ∈ (sendSignedTransactionBody o L b).events ∧
    SEvent.transactionHash hs ∈ (sendSignedTransactionBody o L b).events := by
  have hres : resolveReceipt o = Except.ok r := by
    unfold resolveReceipt
    rw [hr]
  rw [sendTransactionBody_eq_noPricing o L tx opts hn,
    afterPricing_eq_success o L (formatTransaction tx) false h r hb hres,
    sendSignedBody_eq_success o L b hs r hraw hres]
  by_cases hc : 0 < L Tag.confirmation
  · rw [if_pos hc]
    refine ⟨by simp, rfl, ?_, ?_, ?_, fun _ => hc, by simp [signedEvents],
      by simp [signedEvents], by simp [signedEvents]⟩
    · simp [List.mem_append, sending_mem_hashedEvents_iff, List.mem_map]
    · simp [List.mem_append, sent_mem_hashedEvents_iff, List.mem_map]
    · simp [List.mem_append, hash_mem_hashedEvents_iff, List.mem_map]
  · rw [if_neg hc]
    refine ⟨by simp, rfl, ?_, ?_, ?_, ?_, by simp [signedEvents],
      by simp [signedEvents], by simp [signedEvents]⟩
    · simp [List.mem_append, sending_mem_hashedEvents_iff]
    · simp [List.mem_append, sent_mem_hashedEvents_iff]
    · simp [List.mem_append, hash_mem_hashedEvents_iff]
    · rintro ⟨n, hmem⟩
      rcases List.mem_append.mp hmem with hm | hm
      · exact absurd hm (confirmation_not_mem_hashedEvents L (formatTransaction tx) h n)
      · simp at hm

/-- Witness for the C9 theorem at the happy oracle with zero listeners:
the receipt event is still emitted and the promise resolved. -/
theorem emission_conditionality_witness :
    needsGasPricing txPriced none = false ∧
    Event.receipt rcpt1 ∈ (sendTransactionBody oracleHappy noListeners txPriced none).events ∧
    SEvent.sending 9 ∈ (sendSignedTransactionBody oracleHappy noListeners 9).events :=
  ⟨by decide,
    (emission_conditionality oracleHappy noListeners txPriced none 9 5 5 rcpt1
      (by decide) rfl rfl rfl).1,
    (emission_conditionality oracleHappy noListeners txPriced none 9 5 5 rcpt1
      (by decide) rfl rfl rfl).2.2.2.2.2.2.1⟩

/-- C10: `Web3Eth.getSha3` sends the eth_sha3 request with an empty
params list for every input; the data argument never appears in the
request, so two calls differing only in data issue identical requests and
obtain identical results from the same node state. -/
theorem getSha3_ignores_data (node : RpcRequest → String) (d1 d2 : String)
    (rpcOptions : Option HttpRpcOptions) :
    getSha3Request d1 rpcOptions = getSha3Request d2 rpcOptions ∧
    (getSha3Request d1 rpcOptions).params = [] ∧
    getSha3 node d1 rpcOptions = getSha3 node d2 rpcOptions :=
  ⟨rfl, rfl, rfl⟩
